import Mathlib

/-!
Verification development for the goemail library (message serialization and
SMTP transport client).  Go strings and byte buffers are modelled as lists of
characters (`Chars`); attachment contents are lists of byte values (`Nat`,
with explicit `< 256` bounds where the arithmetic needs them).  The network
side of `Send` is modelled by an explicit oracle (`Server`) giving the
outcome of every protocol step, and `Send` returns both its result and the
trace of protocol events it performed, mirroring the control flow of the
Go function line by line.
-/

namespace Goemail

/-- Go strings / byte buffers, modelled as lists of characters.  Attachment
contents (Go `[]byte`) are modelled as `List Nat` with explicit `< 256`
bounds where the arithmetic needs them. -/
abbrev Chars := List Char

/-- Conversion of a Lean string literal to the character-list model. -/
def str (s : String) : Chars := s.data

/-- An email message: translation of the Go struct `Message`
(src/email.go lines 25-36).  The Go `attachments` map is modelled as an
association list holding the map entries in one iteration order; Go's map
iteration order is not fixed, which is modelled by `BodyRel` below. -/
structure Message where
  fromAddr : Chars
  name : Chars
  «to» : List Chars
  cc : List Chars
  bcc : List Chars
  date : Chars
  subject : Chars
  body : Chars
  bodyContentType : Chars
  attachments : List (Chars × List Nat)
  deriving DecidableEq

/-- Translation of `newMessage` (src/email.go lines 46-56).  The Go code
captures `time.Now().Format(time.RFC1123Z)` at construction time; the
already-formatted date string is the `date` argument here. -/
def newMessage (fromAddr subject body contenttype date : Chars) : Message :=
  { fromAddr := fromAddr
    name := []
    «to» := []
    cc := []
    bcc := []
    date := date
    subject := subject
    body := body
    bodyContentType := contenttype
    attachments := [] }

/-- Translation of `Message.Recipients` (src/email.go lines 158-164). -/
def Message.Recipients (m : Message) : List Chars :=
  m.«to» ++ m.cc ++ m.bcc

/-- The fixed multipart boundary constant of `Body` (src/email.go line 112). -/
def boundary : Chars := str "mnwKuycHoXCwn9S5UY6avz8ZGJPEeUdMPS"

/-- The base64 standard alphabet (used by `encoding/base64.StdEncoding`). -/
def b64Alphabet : Chars :=
  str "ABCDEFGHIJKLMNOPQRSTUVWXYZabcdefghijklmnopqrstuvwxyz0123456789+/"

/-- Character for a 6-bit group. -/
def b64Char (i : Nat) : Char := b64Alphabet.getD i 'A'

/-- Standard base64 encoding with padding, as performed by
`base64.StdEncoding.Encode` on the attachment bytes (src/email.go
lines 129-131).  Shifts and masks are written as division and remainder. -/
def b64Encode : List Nat → Chars
  | [] => []
  | [a] => [b64Char (a / 4), b64Char (a % 4 * 16), '=', '=']
  | [a, b] => [b64Char (a / 4), b64Char (a % 4 * 16 + b / 16), b64Char (b % 16 * 4), '=']
  | a :: b :: c :: rest =>
      b64Char (a / 4) :: b64Char (a % 4 * 16 + b / 16) ::
      b64Char (b % 16 * 4 + c / 64) :: b64Char (c % 64) :: b64Encode rest

/-- Header block of `Body` (src/email.go lines 102-110): From, Date, To,
optional Cc, Subject and MIME-Version lines. -/
def headersPart (m : Message) : Chars :=
  str "From: " ++ (str "\"" ++ m.name ++ str "\" <" ++ m.fromAddr ++ str ">") ++ str "\n" ++
  (str "Date: " ++ m.date ++ str "\n") ++
  (str "To: " ++ List.intercalate (str ",") m.«to» ++ str "\n") ++
  (if m.cc.length > 0 then str "Cc: " ++ List.intercalate (str ",") m.cc ++ str "\n" else []) ++
  (str "Subject: " ++ m.subject ++ str "\n") ++
  str "MIME-Version: 1.0\n"

/-- Attachment part headers written for each attachment
(src/email.go lines 125-127). -/
def attachmentHeader (k : Chars) : Chars :=
  str "Content-Type: application/octet-stream\n" ++
  str "Content-Transfer-Encoding: base64\n" ++
  (str "Content-Disposition: attachment; filename=\"" ++ k ++ str "\"\n\n")

/-- One iteration of the attachment loop of `Body`
(src/email.go lines 123-133). -/
def attachmentChunk (kv : Chars × List Nat) : Chars :=
  str "\n\n--" ++ (boundary ++ (str "\n" ++
  (attachmentHeader kv.1 ++ (b64Encode kv.2 ++ (str "\n--" ++ boundary)))))

/-- Translation of `Message.Body` (src/email.go lines 100-139) for one
fixed iteration order of the attachment map (the order of the
`attachments` list). -/
def Message.Body (m : Message) : Chars :=
  headersPart m ++
  ((if m.attachments.length > 0 then
      str "Content-Type: multipart/mixed; boundary=" ++ (boundary ++ (str "\n" ++
      (str "--" ++ (boundary ++ str "\n"))))
    else []) ++
  ((str "Content-Type: " ++ m.bodyContentType ++ str "; charset=utf-8\n") ++
  (m.body ++
  (if m.attachments.length > 0 then
      (m.attachments.map attachmentChunk).flatten ++ str "--"
    else []))))

/-- The Go `Body` iterates the attachment map in an unspecified order, so a
message with several attachments may serialize in several ways.  `BodyRel m
out` says `out` is a possible output of `m.Body()`. -/
def BodyRel (m : Message) (out : Chars) : Prop :=
  ∃ l, List.Perm l m.attachments ∧ out = Message.Body { m with attachments := l }

/-! ### Counting substring occurrences

`countOccs p s` is the number of positions of `s` at which the pattern `p`
occurs as a contiguous substring. -/

/-- Number of occurrences of `p` as a contiguous substring of `s` (one per
starting position). -/
def countOccs (p : Chars) : Chars → Nat
  | [] => if p <+: ([] : Chars) then 1 else 0
  | c :: s => (if p <+: (c :: s) then 1 else 0) + countOccs p s

/-- A pattern has no self-overlap when no nonempty proper suffix of it is
also one of its own leading parts; occurrences of such a pattern can never
straddle one of its literal insertions. -/
def NoOverlap (p : Chars) : Prop :=
  ∀ k, 0 < k → k < p.length → ¬ (p.drop k <+: p)

theorem countOccs_nil (p : Chars) (hne : p ≠ []) : countOccs p [] = 0 := by
  have h : ¬ (p <+: ([] : Chars)) := by
    intro h
    obtain ⟨t, ht⟩ := h
    exact hne (List.append_eq_nil.mp ht).1
  simp only [countOccs, if_neg h]

theorem take_pref (n : Nat) (l : Chars) : l.take n <+: l :=
  ⟨l.drop n, List.take_append_drop n l⟩

/-- If `p` occurs at the start of `u ++ t` but would have to straddle the
junction (because `u` is shorter than `p`), then a leading part of `p`
equals `u` and the remainder of `p` starts `t`. -/
theorem take_eq_of_pref_append {p u : Chars} {t : Chars}
    (h : p <+: u ++ t) (hle : u.length ≤ p.length) : p.take u.length = u := by
  obtain ⟨r, hr⟩ := h
  have h1 : (p ++ r).take u.length = p.take u.length :=
    List.take_append_of_le_length hle
  rw [hr] at h1
  rw [← h1, List.take_left]

/-- Inside a text `u ++ t` where `u` is a strict suffix `p.drop k` of the
pattern, the pattern cannot occur at position 0. -/
theorem not_pref_drop {p : Chars} (hp : NoOverlap p) (k : Nat) (hk : 0 < k)
    (hkl : k < p.length) (t : Chars) : ¬ (p <+: p.drop k ++ t) := by
  intro h
  have hlen : (p.drop k).length = p.length - k := List.length_drop k p
  have hle : (p.drop k).length ≤ p.length := by omega
  have h1 : p.take (p.drop k).length = p.drop k := take_eq_of_pref_append h hle
  exact hp k hk hkl (h1 ▸ take_pref (p.drop k).length p)

/-- Occurrences of a no-overlap pattern in a text `u ++ t` where `u` is a
strict suffix of the pattern are exactly the occurrences in `t`. -/
theorem countOccs_drop_append (p t : Chars) (hp : NoOverlap p) :
    ∀ n k, p.length - k ≤ n → 0 < k → countOccs p (p.drop k ++ t) = countOccs p t := by
  intro n
  induction n with
  | zero =>
      intro k hn hk
      have h1 : p.length ≤ k := by omega
      simp [List.drop_eq_nil_of_le h1]
  | succ n ih =>
      intro k hn hk
      by_cases hkp : p.length ≤ k
      · simp [List.drop_eq_nil_of_le hkp]
      · push_neg at hkp
        rw [List.drop_eq_getElem_cons hkp, List.cons_append]
        have hno : ¬ (p <+: p[k] :: (p.drop (k + 1) ++ t)) := by
          rw [← List.cons_append, ← List.drop_eq_getElem_cons hkp]
          exact not_pref_drop hp k hk hkp t
        rw [countOccs, if_neg hno]
        rcases Nat.lt_or_ge (k + 1) p.length with h2 | h2
        · rw [ih (k + 1) (by omega) (by omega)]
          omega
        · rw [List.drop_eq_nil_of_le h2]
          simp

/-- Peeling a literal copy of a no-overlap pattern off the front of a text
counts exactly one occurrence. -/
theorem countOccs_self_append (p t : Chars) (hp : NoOverlap p) (hne : p ≠ []) :
    countOccs p (p ++ t) = 1 + countOccs p t := by
  obtain ⟨c, p', hcp⟩ := List.exists_cons_of_ne_nil hne
  have h0 : p <+: p ++ t := ⟨t, rfl⟩
  conv_lhs => rw [hcp]
  rw [List.cons_append, countOccs, ← List.cons_append, ← hcp, if_pos h0]
  have hdrop : p' = p.drop 1 := by rw [hcp]; rfl
  rcases Nat.lt_or_ge 1 p.length with h1 | h1
  · rw [hdrop, countOccs_drop_append p t hp (p.length - 1) 1 (by omega) (by omega)]
  · have hp' : p' = [] := by
      have h2 : p.length = p'.length + 1 := by rw [hcp]; simp
      exact List.eq_nil_of_length_eq_zero (by omega)
    rw [hp']
    simp
/-- If a no-overlap pattern occurs at the start of `u ++ (p ++ r)` with `u`
nonempty, it must already occur at the start of `u`: it cannot straddle the
junction into the literal copy of `p`. -/
theorem pref_append_elim {p u r : Chars} (hp : NoOverlap p) (hu : u ≠ [])
    (h : p <+: u ++ (p ++ r)) : p <+: u := by
  rcases Nat.lt_or_ge u.length p.length with hlt | hle
  · exfalso
    have hu0 : 0 < u.length := List.length_pos.mpr hu
    obtain ⟨s, hs⟩ := h
    have h1 := congrArg (List.drop u.length) hs
    rw [List.drop_append_eq_append_drop, List.drop_left,
      Nat.sub_eq_zero_of_le (Nat.le_of_lt hlt), List.drop_zero] at h1
    have hL : (p.drop u.length ++ s).take (p.length - u.length) = p.drop u.length := by
      have h2 : p.length - u.length = (p.drop u.length).length := (List.length_drop _ _).symm
      rw [h2, List.take_left]
    have hR : (p ++ r).take (p.length - u.length) = p.take (p.length - u.length) :=
      List.take_append_of_le_length (Nat.sub_le _ _)
    have heq : p.drop u.length = p.take (p.length - u.length) := by
      rw [← hL, h1, hR]
    exact hp u.length hu0 hlt (heq ▸ take_pref (p.length - u.length) p)
  · obtain ⟨s, hs⟩ := h
    have h1 : (p ++ s).take p.length = p := List.take_left p s
    rw [hs, List.take_append_of_le_length hle] at h1
    exact h1 ▸ take_pref p.length u

/-- Occurrences of a no-overlap pattern in `A ++ p ++ r` split as the
occurrences inside `A` plus the occurrences in `p ++ r`: none can straddle
the junction. -/
theorem countOccs_append_insert (p A r : Chars) (hp : NoOverlap p) (hne : p ≠ []) :
    countOccs p (A ++ (p ++ r)) = countOccs p A + countOccs p (p ++ r) := by
  induction A with
  | nil => rw [countOccs_nil p hne]; simp
  | cons c A' ih =>
      rw [List.cons_append, countOccs, ih, countOccs]
      have hiff : (p <+: c :: (A' ++ (p ++ r))) ↔ (p <+: c :: A') := by
        constructor
        · intro h
          rw [← List.cons_append] at h
          exact pref_append_elim hp (by simp) h
        · intro h
          obtain ⟨s, hs⟩ := h
          refine ⟨s ++ (p ++ r), ?_⟩
          rw [← List.append_assoc, hs]
          rfl
      rw [if_congr hiff rfl rfl]
      omega

theorem boundary_ne_nil : boundary ≠ [] := by decide

/-- The boundary constant has no self-overlap: no nonempty proper suffix of
it is one of its own leading parts. -/
theorem boundary_noOverlap : NoOverlap boundary := by
  have h : ∀ k ∈ List.range boundary.length, 0 < k → ¬ (boundary.drop k <+: boundary) := by
    decide
  intro k h1 h2
  exact h k (List.mem_range.mpr h2) h1

/-! ### Decomposition of `Body` around the boundary insertions -/

/-- Everything `Body` writes before the first boundary insertion (the
`boundary=` parameter of the multipart header). -/
def headerSegment (m : Message) : Chars :=
  headersPart m ++ str "Content-Type: multipart/mixed; boundary="

/-- Text between the opening delimiter's boundary and the first attachment
chunk's boundary: body content-type line, body text and the `--` lead of
the first attachment delimiter. -/
def bodySegment (m : Message) : Chars :=
  str "\n" ++ ((str "Content-Type: " ++ m.bodyContentType ++ str "; charset=utf-8\n") ++
    (m.body ++ str "\n\n--"))

/-- Text between an attachment chunk's opening boundary and its trailing
boundary: attachment headers, base64 data and the `--` lead of the trailing
delimiter. -/
def attSegment (kv : Chars × List Nat) : Chars :=
  str "\n" ++ (attachmentHeader kv.1 ++ (b64Encode kv.2 ++ str "\n--"))

theorem attachmentChunk_decomp (kv : Chars × List Nat) (X : Chars) :
    attachmentChunk kv ++ X =
      str "\n\n--" ++ (boundary ++ (attSegment kv ++ (boundary ++ X))) := by
  simp [attachmentChunk, attSegment, List.append_assoc]

/-- `Body` of a message with at least one attachment, rewritten as its
in-between segments alternating with the five-or-more literal boundary
insertions. -/
theorem body_decomp (m : Message) (kv : Chars × List Nat)
    (rest : List (Chars × List Nat)) (hatt : m.attachments = kv :: rest) :
    m.Body = headerSegment m ++ (boundary ++ ((str "\n" ++ str "--") ++ (boundary ++
      (bodySegment m ++ (boundary ++ (attSegment kv ++ (boundary ++
        ((rest.map attachmentChunk).flatten ++ str "--")))))))) := by
  simp only [Message.Body, hatt, headerSegment, bodySegment, attSegment,
    attachmentChunk, List.length_cons, List.map_cons, List.flatten_cons,
    Nat.succ_pos, if_pos, gt_iff_lt, Nat.zero_lt_succ]
  simp [List.append_assoc]

theorem countOccs_chunks (l : List (Chars × List Nat))
    (h : ∀ kv ∈ l, countOccs boundary (attSegment kv) = 0) :
    countOccs boundary ((l.map attachmentChunk).flatten ++ str "--") = 2 * l.length := by
  induction l with
  | nil =>
      simp only [List.map_nil, List.flatten_nil, List.nil_append, List.length_nil]
      decide
  | cons kv rest ih =>
      rw [List.map_cons, List.flatten_cons, List.append_assoc, attachmentChunk_decomp,
        countOccs_append_insert _ _ _ boundary_noOverlap boundary_ne_nil,
        countOccs_self_append _ _ boundary_noOverlap boundary_ne_nil,
        countOccs_append_insert _ _ _ boundary_noOverlap boundary_ne_nil,
        countOccs_self_append _ _ boundary_noOverlap boundary_ne_nil,
        ih (fun kv h1 => h kv (List.mem_cons_of_mem _ h1)),
        h kv (List.mem_cons_self kv rest)]
      have h4 : countOccs boundary (str "\n\n--") = 0 := by decide
      rw [h4]
      simp [List.length_cons]
      ring

/-- General boundary count of `Body` for a message with attachments: one
occurrence in the `boundary=` parameter, one opening delimiter after the
multipart header, and two per attachment (its opening delimiter and its
trailing one, the last of which is closed to `--boundary--`). -/
theorem countOccs_boundary_body (m : Message) (hne : m.attachments ≠ [])
    (hh : countOccs boundary (headerSegment m) = 0)
    (hb : countOccs boundary (bodySegment m) = 0)
    (ha : ∀ kv ∈ m.attachments, countOccs boundary (attSegment kv) = 0) :
    countOccs boundary m.Body = 2 * m.attachments.length + 2 := by
  obtain ⟨kv, rest, hatt⟩ := List.exists_cons_of_ne_nil hne
  rw [body_decomp m kv rest hatt,
    countOccs_append_insert _ _ _ boundary_noOverlap boundary_ne_nil,
    countOccs_self_append _ _ boundary_noOverlap boundary_ne_nil,
    countOccs_append_insert _ _ _ boundary_noOverlap boundary_ne_nil,
    countOccs_self_append _ _ boundary_noOverlap boundary_ne_nil,
    countOccs_append_insert _ _ _ boundary_noOverlap boundary_ne_nil,
    countOccs_self_append _ _ boundary_noOverlap boundary_ne_nil,
    countOccs_append_insert _ _ _ boundary_noOverlap boundary_ne_nil,
    countOccs_self_append _ _ boundary_noOverlap boundary_ne_nil,
    countOccs_chunks rest (fun kv' h1 => ha kv' (hatt ▸ List.mem_cons_of_mem _ h1)),
    hh, hb, ha kv (hatt ▸ List.mem_cons_self kv rest), hatt]
  have h4 : countOccs boundary (str "\n" ++ str "--") = 0 := by decide
  rw [h4]
  simp [List.length_cons]
  ring

/-- Concrete one-attachment message used to exhibit the actual boundary
count of the serialized format. -/
def msgC1 : Message :=
  { fromAddr := str "a@x.com"
    name := str "A"
    «to» := [ str "b@y.com" ]
    cc := []
    bcc := []
    date := str "Mon, 02 Jan 2006 15:04:05 -0700"
    subject := str "hello"
    body := str "hi"
    bodyContentType := str "text/plain"
    attachments := [(str "f.bin", [104, 105])] }

set_option maxRecDepth 20000

/-- C1: the claim that for a Message with N ≥ 1 attachments the serialized
output of `Body()` contains exactly N+1 occurrences of the boundary token is
false: this one-attachment message serializes with 4 occurrences of the
boundary token, not 2. -/
theorem c1_counterexample :
    countOccs boundary msgC1.Body ≠ msgC1.attachments.length + 1 := by decide

/-- C1 (amended): for every Message with N ≥ 1 attachments none of whose
serialized segments themselves contain the boundary token, the output of
`Body()` contains exactly 2N+2 occurrences of the boundary token: one in
the `boundary=` header parameter, one opening delimiter after the multipart
header, and, for each attachment, one opening delimiter plus one trailing
delimiter, the final trailing one being closed as `--boundary--`. -/
theorem c1_amended_count (m : Message) (hne : m.attachments ≠ [])
    (hh : countOccs boundary (headerSegment m) = 0)
    (hb : countOccs boundary (bodySegment m) = 0)
    (ha : ∀ kv ∈ m.attachments, countOccs boundary (attSegment kv) = 0) :
    countOccs boundary m.Body = 2 * m.attachments.length + 2 :=
  countOccs_boundary_body m hne hh hb ha

/-- C1 (witness): the amended count theorem evaluated on the concrete
one-attachment message `msgC1`. -/
theorem c1_witness :
    (msgC1.attachments ≠ [] ∧
      countOccs boundary (headerSegment msgC1) = 0 ∧
      countOccs boundary (bodySegment msgC1) = 0 ∧
      (∀ kv ∈ msgC1.attachments, countOccs boundary (attSegment kv) = 0)) ∧
    countOccs boundary msgC1.Body = 2 * msgC1.attachments.length + 2 :=
  ⟨⟨by decide, by decide, by decide, by decide⟩,
    c1_amended_count msgC1 (by decide) (by decide) (by decide) (by decide)⟩

/-! ### Base64 decoding and the attachment round trip -/

/-- Index of a character in the base64 alphabet (the mathematical inverse
of `b64Char`), used by the reference decoder. -/
def b64Index (c : Char) : Option Nat := b64Alphabet.findIdx? (fun x => x = c)

theorem b64Index_b64Char : ∀ i, i < 64 → b64Index (b64Char i) = some i := by decide

theorem b64Char_ne_pad : ∀ i, i < 64 → b64Char i ≠ '=' := by decide

/-- Reference decoder for standard padded base64 (the decoding named by the
specification): groups of four characters are mapped back to three, two or
one byte according to the trailing padding. -/
def b64Decode : Chars → Option (List Nat)
  | [] => some []
  | c1 :: c2 :: c3 :: c4 :: rest =>
      if c3 = '=' then
        if c4 = '=' ∧ rest = [] then
          match b64Index c1, b64Index c2 with
          | some i1, some i2 => some [i1 * 4 + i2 / 16]
          | _, _ => none
        else none
      else if c4 = '=' then
        if rest = [] then
          match b64Index c1, b64Index c2, b64Index c3 with
          | some i1, some i2, some i3 => some [i1 * 4 + i2 / 16, i2 % 16 * 16 + i3 / 4]
          | _, _, _ => none
        else none
      else
        match b64Index c1, b64Index c2, b64Index c3, b64Index c4, b64Decode rest with
        | some i1, some i2, some i3, some i4, some tl =>
            some ((i1 * 4 + i2 / 16) :: (i2 % 16 * 16 + i3 / 4) :: (i3 % 4 * 64 + i4) :: tl)
        | _, _, _, _, _ => none
  | _ => none

/-- Standard padded base64 decoding inverts the encoding performed on
attachment bytes. -/
theorem b64_roundtrip (v : List Nat) (h : ∀ b ∈ v, b < 256) :
    b64Decode (b64Encode v) = some v := by
  induction v using b64Encode.induct with
  | case1 => rfl
  | case2 a =>
      have ha : a < 256 := h a (by simp)
      have h1 := b64Index_b64Char (a / 4) (by omega)
      have h2 := b64Index_b64Char (a % 4 * 16) (by omega)
      simp [b64Encode, b64Decode, h1, h2]
      omega
  | case3 a b =>
      have ha : a < 256 := h a (by simp)
      have hb : b < 256 := h b (by simp)
      have hp3 : b64Char (b % 16 * 4) ≠ '=' := b64Char_ne_pad _ (by omega)
      have h1 := b64Index_b64Char (a / 4) (by omega)
      have h2 := b64Index_b64Char (a % 4 * 16 + b / 16) (by omega)
      have h3 := b64Index_b64Char (b % 16 * 4) (by omega)
      simp [b64Encode, b64Decode, hp3, h1, h2, h3]
      omega
  | case4 a b c rest ih =>
      have ha : a < 256 := h a (by simp)
      have hb : b < 256 := h b (by simp)
      have hc : c < 256 := h c (by simp)
      have hrest : ∀ x ∈ rest, x < 256 := fun x hx => h x (by simp [hx])
      have hp3 : b64Char (b % 16 * 4 + c / 64) ≠ '=' := b64Char_ne_pad _ (by omega)
      have hp4 : b64Char (c % 64) ≠ '=' := b64Char_ne_pad _ (by omega)
      have h1 := b64Index_b64Char (a / 4) (by omega)
      have h2 := b64Index_b64Char (a % 4 * 16 + b / 16) (by omega)
      have h3 := b64Index_b64Char (b % 16 * 4 + c / 64) (by omega)
      have h4 := b64Index_b64Char (c % 64) (by omega)
      simp [b64Encode, b64Decode, hp3, hp4, h1, h2, h3, h4, ih hrest]
      omega

/-- C8: for every attachment of a Message, the serialized output contains
the base64 encoding of its bytes as a contiguous segment, and decoding that
segment (standard alphabet, padded, unwrapped) gives back the attachment's
bytes exactly. -/
theorem c8_attachment_roundtrip (m : Message) (kv : Chars × List Nat)
    (hmem : kv ∈ m.attachments) (h256 : ∀ b ∈ kv.2, b < 256) :
    (∃ pre post, m.Body = pre ++ (b64Encode kv.2 ++ post)) ∧
    b64Decode (b64Encode kv.2) = some kv.2 := by
  refine ⟨?_, b64_roundtrip kv.2 h256⟩
  obtain ⟨l1, l2, hsplit⟩ := List.append_of_mem hmem
  have hpos : m.attachments.length > 0 := by rw [hsplit]; simp
  refine ⟨headersPart m ++
      ((str "Content-Type: multipart/mixed; boundary=" ++ (boundary ++ (str "\n" ++
        (str "--" ++ (boundary ++ str "\n"))))) ++
      ((str "Content-Type: " ++ m.bodyContentType ++ str "; charset=utf-8\n") ++
      (m.body ++
      ((l1.map attachmentChunk).flatten ++
      (str "\n\n--" ++ (boundary ++ (str "\n" ++ attachmentHeader kv.1))))))),
    str "\n--" ++ (boundary ++ ((l2.map attachmentChunk).flatten ++ str "--")), ?_⟩
  simp only [Message.Body, if_pos hpos]
  rw [hsplit]
  simp [attachmentChunk, List.append_assoc]

/-- C8 (witness): the round-trip theorem evaluated on the concrete
one-attachment message `msgC1` and its attachment `("f.bin", [104, 105])`. -/
theorem c8_witness :
    ((str "f.bin", [104, 105]) ∈ msgC1.attachments ∧
      (∀ b ∈ [104, 105], b < 256)) ∧
    ((∃ pre post, msgC1.Body = pre ++ (b64Encode [104, 105] ++ post)) ∧
      b64Decode (b64Encode [104, 105]) = some [104, 105]) :=
  ⟨⟨by decide, by decide⟩,
    c8_attachment_roundtrip msgC1 (str "f.bin", [104, 105]) (by decide) (by decide)⟩

/-! ### Determinism of serialization (C4) -/

/-- Two-attachment message whose serialization depends on the iteration
order of the attachment map. -/
def msgC4 : Message :=
  { fromAddr := str "a@x.com"
    name := []
    «to» := [ str "b@y.com" ]
    cc := []
    bcc := []
    date := str "Mon, 02 Jan 2006 15:04:05 -0700"
    subject := str "s"
    body := str "hi"
    bodyContentType := str "text/plain"
    attachments := [(str "a", [0]), (str "b", [1])] }

/-- C4: the claim that calling `Body()` twice on an unmodified Message
always yields identical bytes is false: for this two-attachment message,
both orders of the Go map iteration are possible outputs of `Body()` and
they differ byte for byte. -/
theorem c4_counterexample :
    BodyRel msgC4 msgC4.Body ∧
    BodyRel msgC4 (Message.Body { msgC4 with attachments := [(str "b", [1]), (str "a", [0])] }) ∧
    msgC4.Body ≠ Message.Body { msgC4 with attachments := [(str "b", [1]), (str "a", [0])] } := by
  refine ⟨⟨msgC4.attachments, List.Perm.refl _, rfl⟩,
    ⟨[(str "b", [1]), (str "a", [0])], ?_, rfl⟩, by decide⟩
  exact List.Perm.swap (str "a", [0]) (str "b", [1]) []

/-- C4 (amended): serialization is deterministic only up to the attachment
map's iteration order.  For a Message with at most one attachment any two
outputs of `Body()` are byte-identical; and the date, the only time-varying
field, is captured once by `newMessage` at construction (serialization
never recomputes it: `Body` is a pure function of the message fields). -/
theorem c4_amended_determinism :
    (∀ (m : Message) (o1 o2 : Chars), m.attachments.length ≤ 1 →
      BodyRel m o1 → BodyRel m o2 → o1 = o2) ∧
    (∀ fromAddr subject body contenttype date,
      (newMessage fromAddr subject body contenttype date).date = date) := by
  constructor
  · intro m o1 o2 hlen h1 h2
    obtain ⟨l1, hp1, rfl⟩ := h1
    obtain ⟨l2, hp2, rfl⟩ := h2
    have hl : ∀ l : List (Chars × List Nat), List.Perm l m.attachments → l = m.attachments := by
      intro l hp
      cases hatt : m.attachments with
      | nil => rw [hatt] at hp; exact List.perm_nil.mp hp
      | cons x t =>
          have ht : t = [] := by
            have := congrArg List.length hatt
            simp at this
            exact List.eq_nil_of_length_eq_zero (by omega)
          rw [hatt, ht] at hp
          rw [ht]
          exact List.perm_singleton.mp hp
    rw [hl l1 hp1, hl l2 hp2]
  · intro fromAddr subject body contenttype date
    rfl

/-- C4 (witness): determinism instantiated on the one-attachment message
`msgC1`, with both serializations taken in the identity order. -/
theorem c4_witness :
    (msgC1.attachments.length ≤ 1 ∧ BodyRel msgC1 msgC1.Body) ∧
    msgC1.Body = msgC1.Body :=
  ⟨⟨by decide, ⟨msgC1.attachments, List.Perm.refl _, rfl⟩⟩,
    c4_amended_determinism.1 msgC1 msgC1.Body msgC1.Body (by decide)
      ⟨msgC1.attachments, List.Perm.refl _, rfl⟩
      ⟨msgC1.attachments, List.Perm.refl _, rfl⟩⟩


/-! ### Transport configuration (`NewSMTP`) -/

/-- Plain authentication credential as created by
`smtp.PlainAuth("", username, password, host)` (src/email.go line 200). -/
structure PlainAuth where
  identity : Chars
  username : Chars
  password : Chars
  host : Chars
  deriving DecidableEq

/-- Transport configuration: translation of the Go struct `SMTP`
(src/email.go lines 39-44). -/
structure SMTP where
  scheme : Chars
  server : Chars
  auth : Option PlainAuth
  hostname : Chars
  deriving DecidableEq

/-- Parsed form of `scheme://[user[:password]@]host[:port]`. -/
structure URL where
  scheme : Chars
  user : Option (Chars × Option Chars)
  host : Chars
  deriving DecidableEq

/-- Splits the input at the first occurrence of the literal `://`, giving
the scheme and the remainder. -/
def splitScheme : Chars → Option (Chars × Chars)
  | [] => none
  | ':' :: '/' :: '/' :: rest => some ([], rest)
  | c :: rest => (splitScheme rest).map (fun p => (c :: p.1, p.2))

/-- Splits at the last occurrence of `sep`; Go's `url.Parse` separates the
userinfo from the host at the last `@` of the authority. -/
def splitLast (sep : Char) : Chars → Option (Chars × Chars)
  | [] => none
  | c :: rest =>
      match splitLast sep rest with
      | some (a, b) => some (c :: a, b)
      | none => if c = sep then some ([], rest) else none

/-- Splits at the first occurrence of `sep`; Go separates the username from
the password at the first `:` of the userinfo. -/
def splitFirst (sep : Char) : Chars → Option (Chars × Chars)
  | [] => none
  | c :: rest =>
      if c = sep then some ([], rest)
      else (splitFirst sep rest).map (fun p => (c :: p.1, p.2))

/-- Model of `url.Parse` adequate for `scheme://[user[:password]@]host[:port]`
inputs (no path, query or fragment), which is the configuration surface
`NewSMTP` accepts. -/
def parseURL (raw : Chars) : Option URL :=
  match splitScheme raw with
  | none => none
  | some (sch, rest) =>
      match splitLast '@' rest with
      | some (userinfo, host) =>
          match splitFirst ':' userinfo with
          | some (u, pw) => some ⟨sch, some (u, some pw), host⟩
          | none => some ⟨sch, some (userinfo, none), host⟩
      | none => some ⟨sch, none, rest⟩

/-- Model of the `net.SplitHostPort` success test used by `NewSMTP`
(src/email.go line 187): the split fails exactly when the address carries
no port separator. -/
def hasPort (host : Chars) : Bool := host.contains ':'

inductive ConfigErr where
  | parseFailed
  | invalidScheme
  deriving DecidableEq

/-- Translation of `NewSMTP` (src/email.go lines 167-205).  The local
hostname is resolved from the environment by `os.Hostname`; it is passed
here as an argument (its failure path is not modelled).  The credential is
bound with empty identity, the userinfo username and password (the empty
string when absent), and the resolved `server` as the auth host. -/
def NewSMTP (rawURL : Chars) (hostname : Chars) : Except ConfigErr SMTP :=
  match parseURL rawURL with
  | none => .error .parseFailed
  | some url =>
      if url.scheme ≠ str "smtp" ∧ url.scheme ≠ str "smtps" then .error .invalidScheme
      else
        let server := if hasPort url.host then url.host else url.host ++ str ":25"
        let auth : Option PlainAuth :=
          match url.user with
          | some (u, pw) => some ⟨[], u, pw.getD [], server⟩
          | none => none
        .ok ⟨url.scheme, server, auth, hostname⟩

/-- C6: configuring with `smtp://host` succeeds with server `host:25`
(default port 25 applied); `smtps://user:pw@host:465` yields scheme
`smtps`, server `host:465` and a bound credential; `ftp://host` fails with
the invalid-scheme error. -/
theorem c6_configure (hostname : Chars) :
    NewSMTP (str "smtp://host") hostname =
      .ok { scheme := str "smtp", server := str "host:25", auth := none,
            hostname := hostname } ∧
    NewSMTP (str "smtps://user:pw@host:465") hostname =
      .ok { scheme := str "smtps", server := str "host:465",
            auth := some { identity := [], username := str "user",
                           password := str "pw", host := str "host:465" },
            hostname := hostname } ∧
    NewSMTP (str "ftp://host") hostname = .error .invalidScheme := by
  refine ⟨?_, ?_, ?_⟩ <;> rfl

/-! ### The `Send` protocol sequence

`Send` (src/email.go lines 208-286) drives one SMTP session.  The remote
server and network are modelled by the oracle `Server`, which fixes the
outcome of every protocol step; `Send` returns its result (`none` for
success) together with the ordered trace of protocol events it performed.
The behaviour of the `net/smtp` client library is part of the model:
`smtp.NewClient` reads the greeting and closes the connection itself when
that read fails, and `client.Quit` closes the connection only when the QUIT
exchange succeeds. -/

/-- Protocol events performed by `Send`, in order. -/
inductive Ev where
  | dialTLS (insecureSkipVerify : Bool)
  | dialPlain
  | newClient
  | closeConn
  | hello (localName : Chars)
  | extQuery (ext : Chars)
  | startTLS (insecureSkipVerify : Bool)
  | authCmd
  | mailCmd (fromAddr : Chars)
  | rcptCmd (addr : Chars)
  | dataCmd
  | writeBody (b : Chars)
  | dataClose
  | quitCmd
  deriving DecidableEq

/-- Typed failure of `Send`, named by the step that failed. -/
inductive SendErr where
  | noRecipients
  | dialFailed
  | greetFailed
  | helloFailed
  | startTLSFailed
  | authFailed
  | mailFailed
  | rcptFailed (idx : Nat)
  | dataFailed
  | writeFailed
  | quitFailed
  deriving DecidableEq

/-- Oracle fixing the outcome of every protocol step of one session. -/
structure Server where
  dialOk : Bool
  greetOk : Bool
  helloOk : Bool
  hasStartTLS : Bool
  startTLSOk : Bool
  authOk : Bool
  mailOk : Bool
  rcptOk : Nat → Bool
  dataOk : Bool
  writeOk : Bool
  dataCloseOk : Bool
  quitOk : Bool

/-- Sequencing of protocol phases: on failure of the first phase its error
and events are final; otherwise the second phase's events follow. -/
def andThen (a : Option SendErr × List Ev) (b : Unit → Option SendErr × List Ev) :
    Option SendErr × List Ev :=
  match a with
  | (some e, evs) => (some e, evs)
  | (none, evs) => ((b ()).1, evs ++ (b ()).2)

/-- STARTTLS phase (src/email.go lines 240-251): only when the scheme is
not `smtps`, the STARTTLS extension is queried; when advertised, the
upgrade is attempted with certificate verification disabled, and its
failure aborts; when not advertised, the session continues in plaintext. -/
def tlsPhase (s : SMTP) (srv : Server) : Option SendErr × List Ev :=
  if s.scheme = str "smtps" then (none, [])
  else if srv.hasStartTLS then
    if srv.startTLSOk then (none, [Ev.extQuery (str "STARTTLS"), Ev.startTLS true])
    else (some SendErr.startTLSFailed, [Ev.extQuery (str "STARTTLS"), Ev.startTLS true])
  else (none, [Ev.extQuery (str "STARTTLS")])

/-- Authentication phase (src/email.go lines 254-258): performed only when
a credential was configured.  On failure, `net/smtp`'s `Client.Auth` aborts
the exchange and calls `c.Quit()` internally, which closes the connection
exactly when that QUIT exchange succeeds; both failure modes (the mechanism
refusing to start and the server rejecting the exchange) are folded into
`authOk`, and the internal QUIT's outcome is the oracle's `quitOk`. -/
def authPhase (s : SMTP) (srv : Server) : Option SendErr × List Ev :=
  match s.auth with
  | none => (none, [])
  | some _ =>
      if srv.authOk then (none, [Ev.authCmd])
      else
        (some SendErr.authFailed,
          [Ev.authCmd, Ev.quitCmd] ++ (if srv.quitOk then [Ev.closeConn] else []))

/-- MAIL FROM phase (src/email.go lines 261-263). -/
def mailPhase (msg : Message) (srv : Server) : Option SendErr × List Ev :=
  if srv.mailOk then (none, [Ev.mailCmd msg.fromAddr])
  else (some SendErr.mailFailed, [Ev.mailCmd msg.fromAddr])

/-- RCPT TO loop (src/email.go lines 266-270): each recipient is declared
in order; the first rejection aborts the whole operation. -/
def rcptLoop (srv : Server) : List Chars → Nat → Option SendErr × List Ev
  | [], _ => (none, [])
  | r :: rest, i =>
      if srv.rcptOk i then
        ((rcptLoop srv rest (i + 1)).1, Ev.rcptCmd r :: (rcptLoop srv rest (i + 1)).2)
      else (some (SendErr.rcptFailed i), [Ev.rcptCmd r])

/-- DATA phase and session termination (src/email.go lines 273-285): open
the data sub-phase, write the serialized body, close the sub-phase with the
error of the close explicitly discarded (`_ = dataBuf.Close()`), then QUIT.
A successful QUIT closes the connection; a failed QUIT leaves it open. -/
def dataPhase (srv : Server) (body : Chars) : Option SendErr × List Ev :=
  if !srv.dataOk then (some SendErr.dataFailed, [Ev.dataCmd])
  else if !srv.writeOk then (some SendErr.writeFailed, [Ev.dataCmd, Ev.writeBody body])
  else if srv.quitOk then
    (none, [Ev.dataCmd, Ev.writeBody body, Ev.dataClose, Ev.quitCmd, Ev.closeConn])
  else (some SendErr.quitFailed, [Ev.dataCmd, Ev.writeBody body, Ev.dataClose, Ev.quitCmd])

/-- Translation of `Send` (src/email.go lines 208-286).  The recipients
precondition is checked before any dialing; the dial is TLS (certificate
verification disabled) for `smtps` and plaintext otherwise; `NewClient`
reads the greeting and closes the connection itself on failure; then the
HELO, STARTTLS, AUTH, MAIL, RCPT and DATA/QUIT phases run in sequence, each
failure being final. -/
def SMTP.Send (s : SMTP) (msg : Message) (srv : Server) : Option SendErr × List Ev :=
  if msg.Recipients.length < 1 then (some SendErr.noRecipients, [])
  else
    let dialEv := if s.scheme = str "smtps" then Ev.dialTLS true else Ev.dialPlain
    if !srv.dialOk then (some SendErr.dialFailed, [dialEv])
    else if !srv.greetOk then
      (some SendErr.greetFailed, [dialEv, Ev.newClient, Ev.closeConn])
    else if !srv.helloOk then
      (some SendErr.helloFailed, [dialEv, Ev.newClient, Ev.hello s.hostname])
    else
      andThen (none, [dialEv, Ev.newClient, Ev.hello s.hostname]) fun _ =>
      andThen (tlsPhase s srv) fun _ =>
      andThen (authPhase s srv) fun _ =>
      andThen (mailPhase msg srv) fun _ =>
      andThen (rcptLoop srv msg.Recipients 0) fun _ =>
      dataPhase srv msg.Body

/-! ### Structural lemmas about the `Send` pipeline -/

theorem andThen_some {a : Option SendErr × List Ev} {b : Unit → Option SendErr × List Ev}
    {e : SendErr} (h : a.1 = some e) : andThen a b = (some e, a.2) := by
  obtain ⟨r, evs⟩ := a
  cases r with
  | none => simp at h
  | some e' => simp at h; simp [andThen, h]

theorem andThen_none {a : Option SendErr × List Ev} {b : Unit → Option SendErr × List Ev}
    (h : a.1 = none) : andThen a b = ((b ()).1, a.2 ++ (b ()).2) := by
  obtain ⟨r, evs⟩ := a
  cases r with
  | none => simp [andThen]
  | some e' => simp at h

theorem andThen_mem {a : Option SendErr × List Ev} {b : Unit → Option SendErr × List Ev}
    {e : Ev} (h : e ∈ (andThen a b).2) : e ∈ a.2 ∨ e ∈ (b ()).2 := by
  obtain ⟨r, evs⟩ := a
  cases r with
  | none => simp [andThen] at h; rcases h with h | h; exact Or.inl h; exact Or.inr h
  | some e' => simp [andThen] at h; exact Or.inl h

theorem andThen_fst_none_iff {a : Option SendErr × List Ev}
    {b : Unit → Option SendErr × List Ev} :
    (andThen a b).1 = none ↔ (a.1 = none ∧ (b ()).1 = none) := by
  obtain ⟨r, evs⟩ := a
  cases r with
  | none => simp [andThen]
  | some e' => simp [andThen]

theorem tlsPhase_mem {s : SMTP} {srv : Server} {e : Ev} (h : e ∈ (tlsPhase s srv).2) :
    (e = Ev.extQuery (str "STARTTLS") ∧ s.scheme ≠ str "smtps") ∨
    (e = Ev.startTLS true ∧ s.scheme ≠ str "smtps" ∧ srv.hasStartTLS = true) := by
  unfold tlsPhase at h
  split at h
  · simp at h
  · split at h
    · split at h <;> simp at h <;>
        rcases h with h | h <;> simp_all
    · simp at h
      simp_all

theorem authPhase_mem {s : SMTP} {srv : Server} {e : Ev} (h : e ∈ (authPhase s srv).2) :
    e = Ev.authCmd ∨ e = Ev.quitCmd ∨ e = Ev.closeConn := by
  unfold authPhase at h
  split at h
  · simp at h
  · split at h
    · simp at h
      simp [h]
    · by_cases hq : srv.quitOk = true <;> simp [hq] at h <;> tauto

theorem mailPhase_mem {msg : Message} {srv : Server} {e : Ev}
    (h : e ∈ (mailPhase msg srv).2) : e = Ev.mailCmd msg.fromAddr := by
  unfold mailPhase at h
  split at h <;> simp_all

theorem rcptLoop_mem {srv : Server} {e : Ev} :
    ∀ (l : List Chars) (i : Nat), e ∈ (rcptLoop srv l i).2 → ∃ r, r ∈ l ∧ e = Ev.rcptCmd r := by
  intro l
  induction l with
  | nil => intro i h; simp [rcptLoop] at h
  | cons r rest ih =>
      intro i h
      unfold rcptLoop at h
      split at h
      · simp at h
        rcases h with h | h
        · exact ⟨r, by simp, h⟩
        · obtain ⟨r', hr', he⟩ := ih (i + 1) h
          exact ⟨r', by simp [hr'], he⟩
      · simp at h
        exact ⟨r, by simp, h⟩

theorem dataPhase_mem {srv : Server} {body : Chars} {e : Ev}
    (h : e ∈ (dataPhase srv body).2) :
    e = Ev.dataCmd ∨ e = Ev.writeBody body ∨ e = Ev.dataClose ∨ e = Ev.quitCmd ∨
    e = Ev.closeConn := by
  unfold dataPhase at h
  split at h
  · simp at h; simp [h]
  · split at h
    · simp at h; rcases h with h | h <;> simp [h]
    · split at h
      · simp at h; rcases h with h | h | h | h | h <;> simp [h]
      · simp at h; rcases h with h | h | h | h <;> simp [h]

/-- Every event in a `Send` trace is of one of the protocol shapes below;
in particular both TLS events always carry `insecureSkipVerify = true`, a
STARTTLS query or upgrade occurs only when the scheme is not `smtps`, and
an upgrade occurs only when the server advertises STARTTLS. -/
theorem send_mem {s : SMTP} {msg : Message} {srv : Server} {e : Ev}
    (he : e ∈ (s.Send msg srv).2) :
    e = Ev.dialTLS true ∨ e = Ev.dialPlain ∨ e = Ev.newClient ∨ e = Ev.closeConn ∨
    e = Ev.hello s.hostname ∨
    (e = Ev.extQuery (str "STARTTLS") ∧ s.scheme ≠ str "smtps") ∨
    (e = Ev.startTLS true ∧ s.scheme ≠ str "smtps" ∧ srv.hasStartTLS = true) ∨
    e = Ev.authCmd ∨ e = Ev.mailCmd msg.fromAddr ∨ (∃ r, e = Ev.rcptCmd r) ∨
    e = Ev.dataCmd ∨ e = Ev.writeBody msg.Body ∨ e = Ev.dataClose ∨ e = Ev.quitCmd := by
  by_cases hs : s.scheme = str "smtps" <;>
  · simp only [SMTP.Send, hs, if_true, if_false, reduceIte] at he
    split at he
    · simp at he
    · split at he
      · simp at he; simp [he]
      · split at he
        · simp at he
          rcases he with he | he | he <;> simp [he]
        · split at he
          · simp at he
            rcases he with he | he | he <;> simp [he]
          · rw [andThen_none rfl] at he
            simp only [List.mem_append, List.mem_cons, List.mem_singleton] at he
            rcases he with (he | he | he | he) | he
            · simp [he]
            · simp [he]
            · simp [he]
            · simp at he
            · rcases andThen_mem he with he | he
              · rcases tlsPhase_mem he with ⟨h1, h2⟩ | ⟨h1, h2, h3⟩ <;> simp_all
              rcases andThen_mem he with he | he
              · rcases authPhase_mem he with h1 | h1 | h1 <;> simp [h1]
              rcases andThen_mem he with he | he
              · have h1 := mailPhase_mem he; simp [h1]
              rcases andThen_mem he with he | he
              · obtain ⟨r, _, h1⟩ := rcptLoop_mem _ _ he
                simp [h1]
              · rcases dataPhase_mem he with h1 | h1 | h1 | h1 | h1 <;> simp [h1]

theorem authPhase_fst (s : SMTP) (srv : Server) :
    (authPhase s srv).1 = none ∨ (authPhase s srv).1 = some SendErr.authFailed := by
  unfold authPhase
  rcases s.auth with _ | a
  · simp
  · by_cases h : srv.authOk = true <;> simp [h]

theorem mailPhase_fst (msg : Message) (srv : Server) :
    (mailPhase msg srv).1 = none ∨ (mailPhase msg srv).1 = some SendErr.mailFailed := by
  unfold mailPhase
  by_cases h : srv.mailOk = true <;> simp [h]

theorem rcptLoop_fst (srv : Server) :
    ∀ (l : List Chars) (i : Nat),
      (rcptLoop srv l i).1 = none ∨ ∃ j, (rcptLoop srv l i).1 = some (SendErr.rcptFailed j) := by
  intro l
  induction l with
  | nil => intro i; simp [rcptLoop]
  | cons r rest ih =>
      intro i
      unfold rcptLoop
      by_cases h : srv.rcptOk i = true
      · simp only [h, if_true]
        exact ih (i + 1)
      · simp [h]

theorem dataPhase_fst (srv : Server) (body : Chars) :
    (dataPhase srv body).1 = none ∨ (dataPhase srv body).1 = some SendErr.dataFailed ∨
    (dataPhase srv body).1 = some SendErr.writeFailed ∨
    (dataPhase srv body).1 = some SendErr.quitFailed := by
  unfold dataPhase
  by_cases h1 : srv.dataOk = true <;> by_cases h2 : srv.writeOk = true <;>
    by_cases h3 : srv.quitOk = true <;> simp [h1, h2, h3]

theorem andThen_none_pair {evs : List Ev} {b : Unit → Option SendErr × List Ev} :
    andThen (none, evs) b = ((b ()).1, evs ++ (b ()).2) := rfl

/-- A `startTLSFailed` result can only come out of the STARTTLS phase, so
the server must have advertised the extension and the scheme cannot have
been `smtps`. -/
theorem send_stls_result {s : SMTP} {msg : Message} {srv : Server}
    (h : (s.Send msg srv).1 = some SendErr.startTLSFailed) :
    srv.hasStartTLS = true ∧ s.scheme ≠ str "smtps" := by
  have hchain : (andThen (tlsPhase s srv) fun _ =>
      andThen (authPhase s srv) fun _ =>
      andThen (mailPhase msg srv) fun _ =>
      andThen (rcptLoop srv msg.Recipients 0) fun _ =>
      dataPhase srv msg.Body).1 = some SendErr.startTLSFailed →
      srv.hasStartTLS = true ∧ s.scheme ≠ str "smtps" := by
    intro h
    cases htls : (tlsPhase s srv).1 with
    | some e =>
        rw [andThen_some htls] at h
        simp at h
        rw [h] at htls
        unfold tlsPhase at htls
        split at htls
        · simp at htls
        · split at htls
          · constructor
            · assumption
            · assumption
          · simp at htls
    | none =>
        exfalso
        rw [andThen_none htls] at h
        simp only [] at h
        rcases authPhase_fst s srv with ha | ha
        · rw [andThen_none ha] at h
          simp only [] at h
          rcases mailPhase_fst msg srv with hm | hm
          · rw [andThen_none hm] at h
            simp only [] at h
            rcases rcptLoop_fst srv msg.Recipients 0 with hr | ⟨j, hr⟩
            · rw [andThen_none hr] at h
              simp only [] at h
              rcases dataPhase_fst srv msg.Body with hd | hd | hd | hd <;>
                rw [hd] at h <;> simp at h
            · rw [andThen_some hr] at h
              simp at h
          · rw [andThen_some hm] at h
            simp at h
        · rw [andThen_some ha] at h
          simp at h
  by_cases hs : s.scheme = str "smtps" <;>
  · simp only [SMTP.Send, hs, if_true, if_false, reduceIte] at h
    split at h
    · simp at h
    · split at h
      · simp at h
      · split at h
        · simp at h
        · split at h
          · simp at h
          · rw [andThen_none_pair] at h
            exact hchain h

theorem rcptLoop_all_ok {srv : Server} :
    ∀ (l : List Chars) (i : Nat), (∀ j, j < l.length → srv.rcptOk (i + j) = true) →
      rcptLoop srv l i = (none, l.map Ev.rcptCmd) := by
  intro l
  induction l with
  | nil => intro i h; rfl
  | cons r rest ih =>
      intro i h
      have h0 : srv.rcptOk i = true := by
        have := h 0 (by simp)
        simpa using this
      have hrest : ∀ j, j < rest.length → srv.rcptOk (i + 1 + j) = true := by
        intro j hj
        have := h (j + 1) (by simp; omega)
        rwa [show i + (j + 1) = i + 1 + j by omega] at this
      unfold rcptLoop
      rw [ih (i + 1) hrest]
      simp [h0]

theorem rcptLoop_first_fail {srv : Server} :
    ∀ (l : List Chars) (i k : Nat),
      (∀ j, j < k → srv.rcptOk (i + j) = true) → srv.rcptOk (i + k) = false →
      k < l.length →
      rcptLoop srv l i =
        (some (SendErr.rcptFailed (i + k)), (l.take (k + 1)).map Ev.rcptCmd) := by
  intro l
  induction l with
  | nil => intro i k h1 h2 h3; simp at h3
  | cons r rest ih =>
      intro i k h1 h2 h3
      cases k with
      | zero =>
          have h2' : srv.rcptOk i = false := by simpa using h2
          unfold rcptLoop
          simp [h2']
      | succ k' =>
          have h0 : srv.rcptOk i = true := by
            have := h1 0 (by omega)
            simpa using this
          have hsh : ∀ j, j < k' → srv.rcptOk (i + 1 + j) = true := by
            intro j hj
            have := h1 (j + 1) (by omega)
            rwa [show i + (j + 1) = i + 1 + j by omega] at this
          have hf : srv.rcptOk (i + 1 + k') = false := by
            rwa [show i + 1 + k' = i + (k' + 1) by omega]
          unfold rcptLoop
          rw [ih (i + 1) k' hsh hf (by simpa using h3)]
          simp [h0, show i + 1 + k' = i + (k' + 1) by omega]

/-! ### Concrete sessions used as witnesses and counterexamples -/

/-- Three-recipient message with no attachments. -/
def msgSend : Message :=
  { fromAddr := str "a@x.com"
    name := []
    «to» := [ str "b@y.com", str "c@y.com", str "d@y.com" ]
    cc := []
    bcc := []
    date := str "Mon, 02 Jan 2006 15:04:05 -0700"
    subject := str "s"
    body := str "hi"
    bodyContentType := str "text/plain"
    attachments := [] }

/-- Freshly constructed message: no recipients have been added. -/
def msgNoRcpt : Message :=
  newMessage (str "a@x.com") (str "s") (str "hi") (str "text/plain")
    (str "Mon, 02 Jan 2006 15:04:05 -0700")

/-- Server accepting every protocol step. -/
def srvAllOk : Server :=
  { dialOk := true
    greetOk := true
    helloOk := true
    hasStartTLS := true
    startTLSOk := true
    authOk := true
    mailOk := true
    rcptOk := fun _ => true
    dataOk := true
    writeOk := true
    dataCloseOk := true
    quitOk := true }

/-- Plain-scheme configuration without credentials. -/
def cfgPlain : SMTP :=
  { scheme := str "smtp"
    server := str "mail.example.com:25"
    auth := none
    hostname := str "client.local" }

/-- Direct-TLS configuration without credentials. -/
def cfgTLS : SMTP :=
  { scheme := str "smtps"
    server := str "mail.example.com:465"
    auth := none
    hostname := str "client.local" }

/-! ### C10: both TLS paths disable certificate verification -/

/-- C10: every TLS connection `Send` establishes, whether the direct dial
for the `smtps` scheme or the in-band STARTTLS upgrade for the `smtp`
scheme, uses a TLS configuration with `InsecureSkipVerify` set, so the
server's certificate is never validated. -/
theorem c10_insecure_skip_verify (s : SMTP) (msg : Message) (srv : Server) (b : Bool) :
    (Ev.dialTLS b ∈ (s.Send msg srv).2 → b = true) ∧
    (Ev.startTLS b ∈ (s.Send msg srv).2 → b = true) := by
  constructor
  · intro h
    rcases send_mem h with h1 | h1 | h1 | h1 | h1 | ⟨h1, h2⟩ | ⟨h1, h2, h3⟩ | h1 | h1 |
      ⟨r, h1⟩ | h1 | h1 | h1 | h1 <;> simp_all
  · intro h
    rcases send_mem h with h1 | h1 | h1 | h1 | h1 | ⟨h1, h2⟩ | ⟨h1, h2, h3⟩ | h1 | h1 |
      ⟨r, h1⟩ | h1 | h1 | h1 | h1 <;> simp_all

/-- C10 (witness): both TLS events occur with verification disabled in the
concrete sessions. -/
theorem c10_witness :
    (Ev.dialTLS true ∈ (cfgTLS.Send msgSend srvAllOk).2 ∧
      Ev.startTLS true ∈ (cfgPlain.Send msgSend srvAllOk).2) ∧
    (true = true ∧ true = true) :=
  ⟨⟨by decide, by decide⟩,
    ⟨(c10_insecure_skip_verify cfgTLS msgSend srvAllOk true).1 (by decide),
      (c10_insecure_skip_verify cfgPlain msgSend srvAllOk true).2 (by decide)⟩⟩

/-! ### C5: empty recipient list fails before any connection -/

/-- C5: for every Message whose combined to+cc+bcc recipient list is empty,
`Send` fails with the no-recipients error and performs no protocol event at
all: in particular no connection attempt is made. -/
theorem c5_no_recipients (s : SMTP) (msg : Message) (srv : Server)
    (h : msg.«to» ++ msg.cc ++ msg.bcc = []) :
    s.Send msg srv = (some SendErr.noRecipients, []) := by
  have hlen : msg.Recipients.length < 1 := by
    have : msg.Recipients = [] := h
    rw [this]
    simp
  simp [SMTP.Send, hlen]

/-- C5 (witness): the freshly constructed message has no recipients and
`Send` rejects it with an empty trace. -/
theorem c5_witness :
    (msgNoRcpt.«to» ++ msgNoRcpt.cc ++ msgNoRcpt.bcc = []) ∧
    cfgPlain.Send msgNoRcpt srvAllOk = (some SendErr.noRecipients, []) :=
  ⟨rfl, c5_no_recipients cfgPlain msgNoRcpt srvAllOk rfl⟩

/-! ### C9: opportunistic STARTTLS upgrade -/

/-- C9: `Send` queries the STARTTLS capability only when the scheme is
`smtp`, never when it is `smtps`; when the server advertises it, the
upgrade is performed immediately after the query and before any later
step; when it does not, the session continues in plaintext with no upgrade
attempt and never fails with the upgrade error (silent downgrade). -/
theorem c9_starttls_opportunistic (s : SMTP) (msg : Message) (srv : Server) :
    (s.scheme = str "smtps" → ∀ ext, Ev.extQuery ext ∉ (s.Send msg srv).2) ∧
    (s.scheme = str "smtp" → msg.Recipients ≠ [] → srv.dialOk = true →
      srv.greetOk = true → srv.helloOk = true →
      (∃ rest, (s.Send msg srv).2 =
          [Ev.dialPlain, Ev.newClient, Ev.hello s.hostname, Ev.extQuery (str "STARTTLS")] ++
          ((if srv.hasStartTLS = true then [Ev.startTLS true] else []) ++ rest)) ∧
      (srv.hasStartTLS = false →
        (∀ b, Ev.startTLS b ∉ (s.Send msg srv).2) ∧
        (s.Send msg srv).1 ≠ some SendErr.startTLSFailed)) := by
  constructor
  · intro hs ext h
    rcases send_mem h with h1 | h1 | h1 | h1 | h1 | ⟨h1, h2⟩ | ⟨h1, h2, h3⟩ | h1 | h1 |
      ⟨r, h1⟩ | h1 | h1 | h1 | h1 <;> simp_all
  · intro hs hr hd hg hh
    have hlen : ¬ (msg.Recipients.length < 1) := by
      have := List.length_pos.mpr hr
      omega
    have hne : ¬ (s.scheme = str "smtps") := by
      rw [hs]
      decide
    constructor
    · simp only [SMTP.Send, if_neg hlen, hne, if_false, reduceIte, hd, hg, hh,
        Bool.not_true, Bool.false_eq_true]
      rw [andThen_none_pair]
      by_cases hstls : srv.hasStartTLS = true
      · by_cases hok : srv.startTLSOk = true
        · have htls : tlsPhase s srv =
              (none, [Ev.extQuery (str "STARTTLS"), Ev.startTLS true]) := by
            unfold tlsPhase
            rw [if_neg hne, if_pos hstls, if_pos hok]
          rw [andThen_none (by rw [htls])]
          refine ⟨(andThen (authPhase s srv) fun _ =>
            andThen (mailPhase msg srv) fun _ =>
            andThen (rcptLoop srv msg.Recipients 0) fun _ =>
            dataPhase srv msg.Body).2, ?_⟩
          rw [htls, if_pos hstls]
          simp
        · have htls : tlsPhase s srv =
              (some SendErr.startTLSFailed,
                [Ev.extQuery (str "STARTTLS"), Ev.startTLS true]) := by
            unfold tlsPhase
            rw [if_neg hne, if_pos hstls, if_neg hok]
          rw [andThen_some (by rw [htls])]
          refine ⟨[], ?_⟩
          rw [htls, if_pos hstls]
          simp
      · have htls : tlsPhase s srv = (none, [Ev.extQuery (str "STARTTLS")]) := by
          unfold tlsPhase
          rw [if_neg hne, if_neg hstls]
        rw [andThen_none (by rw [htls])]
        refine ⟨(andThen (authPhase s srv) fun _ =>
          andThen (mailPhase msg srv) fun _ =>
          andThen (rcptLoop srv msg.Recipients 0) fun _ =>
          dataPhase srv msg.Body).2, ?_⟩
        rw [htls, if_neg hstls]
        simp
    · intro hstls
      constructor
      · intro b hb
        rcases send_mem hb with h1 | h1 | h1 | h1 | h1 | ⟨h1, h2⟩ | ⟨h1, h2, h3⟩ | h1 | h1 |
          ⟨r, h1⟩ | h1 | h1 | h1 | h1 <;> simp_all
      · intro habs
        have h1 := (send_stls_result habs).1
        rw [hstls] at h1
        exact Bool.false_ne_true h1

/-- C9 (witness): the two halves instantiated on the concrete sessions: the
`smtps` session never queries STARTTLS, and the plain session queries it
right after the greeting and upgrades immediately. -/
theorem c9_witness :
    (cfgTLS.scheme = str "smtps" ∧ cfgPlain.scheme = str "smtp" ∧
      msgSend.Recipients ≠ [] ∧ srvAllOk.dialOk = true ∧ srvAllOk.greetOk = true ∧
      srvAllOk.helloOk = true) ∧
    ((∀ ext, Ev.extQuery ext ∉ (cfgTLS.Send msgSend srvAllOk).2) ∧
      (∃ rest, (cfgPlain.Send msgSend srvAllOk).2 =
        [Ev.dialPlain, Ev.newClient, Ev.hello cfgPlain.hostname,
          Ev.extQuery (str "STARTTLS")] ++
        ((if srvAllOk.hasStartTLS = true then [Ev.startTLS true] else []) ++ rest))) :=
  ⟨⟨rfl, rfl, by decide, rfl, rfl, rfl⟩,
    ⟨(c9_starttls_opportunistic cfgTLS msgSend srvAllOk).1 rfl,
      ((c9_starttls_opportunistic cfgPlain msgSend srvAllOk).2 rfl (by decide)
        rfl rfl rfl).1⟩⟩

/-! ### C7: recipient declaration order and abort on rejection -/

/-- Recognizer for recipient-declaration events. -/
def Ev.isRcpt : Ev → Bool
  | Ev.rcptCmd _ => true
  | _ => false

theorem tlsPhase_none {s : SMTP} {srv : Server}
    (h : s.scheme = str "smtps" ∨ srv.hasStartTLS = false ∨ srv.startTLSOk = true) :
    (tlsPhase s srv).1 = none := by
  unfold tlsPhase
  split
  · rfl
  · split
    · rcases h with h | h | h
      · simp_all
      · simp_all
      · rw [if_pos h]
    · rfl

theorem authPhase_none {s : SMTP} {srv : Server}
    (h : s.auth = none ∨ srv.authOk = true) :
    (authPhase s srv).1 = none := by
  unfold authPhase
  rcases h with h | h
  · rw [h]
  · cases s.auth
    · rfl
    · simp [h]

theorem mailPhase_ok {msg : Message} {srv : Server} (h : srv.mailOk = true) :
    mailPhase msg srv = (none, [Ev.mailCmd msg.fromAddr]) := by
  unfold mailPhase
  rw [if_pos h]

/-- C7: envelope recipients are declared one by one in to, cc, bcc order;
when the server rejects recipient `k` (and accepted the earlier ones), the
whole operation aborts with that failure: exactly the first `k+1`
recipients were declared, in order, and the data phase is never entered. -/
theorem c7_rcpt_rejection (s : SMTP) (msg : Message) (srv : Server) (k : Nat)
    (h1 : ∀ j, j < k → srv.rcptOk j = true) (h2 : srv.rcptOk k = false)
    (h3 : k < msg.Recipients.length)
    (hd : srv.dialOk = true) (hg : srv.greetOk = true) (hh : srv.helloOk = true)
    (htls : s.scheme = str "smtps" ∨ srv.hasStartTLS = false ∨ srv.startTLSOk = true)
    (hauth : s.auth = none ∨ srv.authOk = true) (hm : srv.mailOk = true) :
    (s.Send msg srv).1 = some (SendErr.rcptFailed k) ∧
    Ev.dataCmd ∉ (s.Send msg srv).2 ∧
    (s.Send msg srv).2.filter Ev.isRcpt =
      ((msg.«to» ++ msg.cc ++ msg.bcc).take (k + 1)).map Ev.rcptCmd := by
  have hlen : ¬ (msg.Recipients.length < 1) := by omega
  have hrcpt : rcptLoop srv msg.Recipients 0 =
      (some (SendErr.rcptFailed k), (msg.Recipients.take (k + 1)).map Ev.rcptCmd) := by
    have := rcptLoop_first_fail msg.Recipients 0 k
      (fun j hj => by simpa using h1 j hj) (by simpa using h2) h3
    simpa using this
  have hsend : s.Send msg srv =
      (some (SendErr.rcptFailed k),
        [(if s.scheme = str "smtps" then Ev.dialTLS true else Ev.dialPlain),
          Ev.newClient, Ev.hello s.hostname] ++
        ((tlsPhase s srv).2 ++ ((authPhase s srv).2 ++
          ([Ev.mailCmd msg.fromAddr] ++ (msg.Recipients.take (k + 1)).map Ev.rcptCmd)))) := by
    simp only [SMTP.Send, if_neg hlen, hd, hg, hh, Bool.not_true, Bool.false_eq_true,
      if_false, reduceIte]
    rw [andThen_none_pair, andThen_none (tlsPhase_none htls),
      andThen_none (authPhase_none hauth),
      andThen_none (by rw [mailPhase_ok hm]), andThen_some (by rw [hrcpt])]
    rw [mailPhase_ok hm, hrcpt]
  refine ⟨by rw [hsend], ?_, ?_⟩
  · intro hmem
    rw [hsend] at hmem
    simp only [List.mem_append, List.mem_cons, List.mem_singleton] at hmem
    rcases hmem with (hmem | hmem | hmem | hmem) | hmem | hmem | hmem | hmem
    · split at hmem <;> simp at hmem
    · simp at hmem
    · simp at hmem
    · simp at hmem
    · rcases tlsPhase_mem hmem with ⟨hx, _⟩ | ⟨hx, _, _⟩ <;> simp at hx
    · rcases authPhase_mem hmem with hx | hx | hx <;> simp at hx
    · simp at hmem
    · simp only [List.mem_map] at hmem
      obtain ⟨r, _, hx⟩ := hmem
      simp at hx
  · rw [hsend]
    simp only [List.filter_append]
    have f1 : ∀ l : List Ev, (∀ e ∈ l, Ev.isRcpt e = false) → l.filter Ev.isRcpt = [] :=
      fun l h => List.filter_eq_nil_iff.mpr (by simpa using h)
    have hpre : ([(if s.scheme = str "smtps" then Ev.dialTLS true else Ev.dialPlain),
        Ev.newClient, Ev.hello s.hostname].filter Ev.isRcpt) = [] := by
      apply f1
      intro e he
      simp only [List.mem_cons, List.mem_singleton] at he
      rcases he with he | he | he
      · rw [he]; split <;> rfl
      · rw [he]; rfl
      · simp at he; rw [he]; rfl
    have htlsf : (tlsPhase s srv).2.filter Ev.isRcpt = [] := by
      apply f1
      intro e he
      rcases tlsPhase_mem he with ⟨hx, _⟩ | ⟨hx, _, _⟩ <;> rw [hx] <;> rfl
    have hauthf : (authPhase s srv).2.filter Ev.isRcpt = [] := by
      apply f1
      intro e he
      rcases authPhase_mem he with hx | hx | hx <;> rw [hx] <;> rfl
    have hmailf : ([Ev.mailCmd msg.fromAddr].filter Ev.isRcpt) = [] := rfl
    have hrcptf : ((msg.Recipients.take (k + 1)).map Ev.rcptCmd).filter Ev.isRcpt =
        (msg.Recipients.take (k + 1)).map Ev.rcptCmd := by
      apply List.filter_eq_self.mpr
      intro e he
      simp only [List.mem_map] at he
      obtain ⟨r, _, hx⟩ := he
      rw [← hx]
      rfl
    rw [hpre, htlsf, hauthf, hmailf, hrcptf]
    simp [Message.Recipients]

/-- Server rejecting the second declared recipient and accepting everything
else. -/
def srvRejectSecond : Server :=
  { dialOk := true
    greetOk := true
    helloOk := true
    hasStartTLS := true
    startTLSOk := true
    authOk := true
    mailOk := true
    rcptOk := fun i => !(i == 1)
    dataOk := true
    writeOk := true
    dataCloseOk := true
    quitOk := true }

/-- C7 (witness): with three recipients and the second rejected, `Send`
fails with that recipient's failure, declares exactly the first two
recipients in order, and never enters the data phase. -/
theorem c7_witness :
    ((∀ j, j < 1 → srvRejectSecond.rcptOk j = true) ∧
      srvRejectSecond.rcptOk 1 = false ∧ 1 < msgSend.Recipients.length) ∧
    ((cfgPlain.Send msgSend srvRejectSecond).1 = some (SendErr.rcptFailed 1) ∧
      Ev.dataCmd ∉ (cfgPlain.Send msgSend srvRejectSecond).2 ∧
      (cfgPlain.Send msgSend srvRejectSecond).2.filter Ev.isRcpt =
        ((msgSend.«to» ++ msgSend.cc ++ msgSend.bcc).take 2).map Ev.rcptCmd) :=
  ⟨⟨by decide, by decide, by decide⟩,
    c7_rcpt_rejection cfgPlain msgSend srvRejectSecond 1 (by decide) (by decide)
      (by decide) rfl rfl rfl (Or.inr (Or.inr rfl)) (Or.inl rfl) rfl⟩

/-! ### C2: error propagation and the discarded data-close error -/

/-- Server accepting everything except the close of the data sub-phase
(the end-of-data exchange fails). -/
def srvCloseFail : Server :=
  { dialOk := true
    greetOk := true
    helloOk := true
    hasStartTLS := false
    startTLSOk := true
    authOk := true
    mailOk := true
    rcptOk := fun _ => true
    dataOk := true
    writeOk := true
    dataCloseOk := false
    quitOk := true }

/-- C2: the claim that the failure of closing the data-transfer sub-phase
is reported to the caller is false: with a server failing exactly that
close, `Send` still performs the close and returns success. -/
theorem c2_counterexample :
    srvCloseFail.dataCloseOk = false ∧
    Ev.dataClose ∈ (cfgPlain.Send msgSend srvCloseFail).2 ∧
    (cfgPlain.Send msgSend srvCloseFail).1 = none :=
  ⟨rfl, by decide, rfl⟩

/-- C2 (amended): every error arising before the close of the data
sub-phase is returned to the caller immediately, but the close's own error
is discarded (`_ = dataBuf.Close()`): after the message bytes are written,
the sub-phase is closed regardless and the operation's result is that of
the final QUIT, independent of whether the close succeeded. -/
theorem c2_amended_close_discarded (s : SMTP) (msg : Message) (srv : Server)
    (hr : msg.Recipients ≠ []) (hd : srv.dialOk = true) (hg : srv.greetOk = true)
    (hh : srv.helloOk = true)
    (htls : s.scheme = str "smtps" ∨ srv.hasStartTLS = false ∨ srv.startTLSOk = true)
    (hauth : s.auth = none ∨ srv.authOk = true) (hm : srv.mailOk = true)
    (hrcpt : ∀ j, j < msg.Recipients.length → srv.rcptOk j = true)
    (hdata : srv.dataOk = true) :
    (srv.writeOk = false → (s.Send msg srv).1 = some SendErr.writeFailed) ∧
    (srv.writeOk = true →
      Ev.dataClose ∈ (s.Send msg srv).2 ∧
      (s.Send msg srv).1 = if srv.quitOk = true then none else some SendErr.quitFailed) := by
  have hlen : ¬ (msg.Recipients.length < 1) := by
    have := List.length_pos.mpr hr
    omega
  have hrl : rcptLoop srv msg.Recipients 0 = (none, msg.Recipients.map Ev.rcptCmd) :=
    rcptLoop_all_ok msg.Recipients 0 (fun j hj => by simpa using hrcpt j hj)
  have hsend : s.Send msg srv =
      ((dataPhase srv msg.Body).1,
        [(if s.scheme = str "smtps" then Ev.dialTLS true else Ev.dialPlain),
          Ev.newClient, Ev.hello s.hostname] ++
        ((tlsPhase s srv).2 ++ ((authPhase s srv).2 ++
          ([Ev.mailCmd msg.fromAddr] ++ (msg.Recipients.map Ev.rcptCmd ++
            (dataPhase srv msg.Body).2))))) := by
    simp only [SMTP.Send, if_neg hlen, hd, hg, hh, Bool.not_true, Bool.false_eq_true,
      if_false, reduceIte]
    rw [andThen_none_pair, andThen_none (tlsPhase_none htls),
      andThen_none (authPhase_none hauth),
      andThen_none (by rw [mailPhase_ok hm]), andThen_none (by rw [hrl])]
    rw [mailPhase_ok hm, hrl]
  constructor
  · intro hw
    rw [hsend]
    simp [dataPhase, hdata, hw]
  · intro hw
    have hdp : Ev.dataClose ∈ (dataPhase srv msg.Body).2 := by
      by_cases hq : srv.quitOk = true <;> simp [dataPhase, hdata, hw, hq]
    constructor
    · rw [hsend]
      simp only [List.mem_append]
      exact Or.inr (Or.inr (Or.inr (Or.inr (Or.inr hdp))))
    · rw [hsend]
      by_cases hq : srv.quitOk = true <;> simp [dataPhase, hdata, hw, hq]

/-- C2 (witness): the amended behaviour on the concrete session whose
data-close fails: the close happens, its error is discarded, and the
result is the successful QUIT's. -/
theorem c2_witness :
    (msgSend.Recipients ≠ [] ∧ srvCloseFail.dataCloseOk = false ∧
      srvCloseFail.writeOk = true) ∧
    (Ev.dataClose ∈ (cfgPlain.Send msgSend srvCloseFail).2 ∧
      (cfgPlain.Send msgSend srvCloseFail).1 =
        if srvCloseFail.quitOk = true then none else some SendErr.quitFailed) :=
  ⟨⟨by decide, rfl, rfl⟩,
    (c2_amended_close_discarded cfgPlain msgSend srvCloseFail (by decide) rfl rfl rfl
      (Or.inr (Or.inl rfl)) (Or.inl rfl) rfl (by decide) rfl).2 rfl⟩

/-! ### C3: the connection is not closed on most failure paths -/

/-- Server rejecting the HELO exchange and accepting everything else. -/
def srvHelloFail : Server :=
  { dialOk := true
    greetOk := true
    helloOk := false
    hasStartTLS := true
    startTLSOk := true
    authOk := true
    mailOk := true
    rcptOk := fun _ => true
    dataOk := true
    writeOk := true
    dataCloseOk := true
    quitOk := true }

/-- C3: the claim that the connection is closed on every exit path of
`Send` is false: when the HELO exchange fails after a successful connect,
`Send` returns the failure with the connection still open (no close event
in the trace). -/
theorem c3_counterexample :
    (cfgPlain.Send msgSend srvHelloFail).1 = some SendErr.helloFailed ∧
    Ev.dialPlain ∈ (cfgPlain.Send msgSend srvHelloFail).2 ∧
    Ev.closeConn ∉ (cfgPlain.Send msgSend srvHelloFail).2 :=
  ⟨rfl, by decide, by decide⟩

theorem andThen_some_pair {e : SendErr} {evs : List Ev}
    {b : Unit → Option SendErr × List Ev} : andThen (some e, evs) b = (some e, evs) := rfl

theorem dataPhase_close_iff (srv : Server) (body : Chars) :
    Ev.closeConn ∈ (dataPhase srv body).2 ↔ (dataPhase srv body).1 = none := by
  by_cases h1 : srv.dataOk = true <;> by_cases h2 : srv.writeOk = true <;>
    by_cases h3 : srv.quitOk = true <;> simp [dataPhase, h1, h2, h3]

theorem tlsPhase_fst (s : SMTP) (srv : Server) :
    (tlsPhase s srv).1 = none ∨ (tlsPhase s srv).1 = some SendErr.startTLSFailed := by
  unfold tlsPhase
  split
  · simp
  · split
    · split <;> simp
    · simp

/-- The authentication phase's trace contains a connection-close event
exactly when authentication failed and the client library's internal QUIT
succeeded. -/
theorem authPhase_close (s : SMTP) (srv : Server) :
    Ev.closeConn ∈ (authPhase s srv).2 ↔
      ((authPhase s srv).1 = some SendErr.authFailed ∧ srv.quitOk = true) := by
  unfold authPhase
  rcases s.auth with _ | a
  · simp
  · by_cases ha : srv.authOk = true
    · simp [ha]
    · by_cases hq : srv.quitOk = true <;> simp [ha, hq]

/-- Sequencing preserves the close characterization: when a phase's close
events are exactly its auth-failure-with-successful-QUIT ones and the rest
of the pipeline is closed exactly on success or on auth failure with a
successful QUIT, the sequenced pipeline is too. -/
theorem andThen_close_iff {a : Option SendErr × List Ev}
    {b : Unit → Option SendErr × List Ev} {q : Bool}
    (ha : Ev.closeConn ∈ a.2 ↔ (a.1 = some SendErr.authFailed ∧ q = true))
    (hb : Ev.closeConn ∈ (b ()).2 ↔
      ((b ()).1 = none ∨ ((b ()).1 = some SendErr.authFailed ∧ q = true))) :
    (Ev.closeConn ∈ (andThen a b).2 ↔
      ((andThen a b).1 = none ∨
        ((andThen a b).1 = some SendErr.authFailed ∧ q = true))) := by
  obtain ⟨r, evs⟩ := a
  cases r with
  | some e =>
      rw [andThen_some_pair]
      constructor
      · intro hmem
        exact Or.inr (ha.mp hmem)
      · intro hres
        rcases hres with hres | hres
        · simp at hres
        · exact ha.mpr hres
  | none =>
      rw [andThen_none_pair]
      have ha' : Ev.closeConn ∉ evs := by
        intro hmem
        have hx := ha.mp hmem
        simp at hx
      constructor
      · intro hmem
        rcases List.mem_append.mp hmem with h | h
        · exact absurd h ha'
        · exact hb.mp h
      · intro hres
        exact List.mem_append.mpr (Or.inr (hb.mpr hres))

theorem closeConn_not_mem_pre {s : SMTP} :
    Ev.closeConn ∉ [(if s.scheme = str "smtps" then Ev.dialTLS true else Ev.dialPlain),
      Ev.newClient, Ev.hello s.hostname] := by
  intro h
  simp only [List.mem_cons, List.not_mem_nil] at h
  rcases h with h | h | h
  · split at h <;> simp at h
  · simp at h
  · rcases h with h | h
    · simp at h
    · exact h

/-- C3 (amended): after a successful connect, the connection is closed in
exactly three situations: when reading the server greeting fails (the
client library closes it), when authentication fails and the client
library's internal QUIT succeeds (`Client.Auth` aborts and quits), and
when the whole session, final QUIT included, succeeds.  On every other
failure path `Send` returns with the connection left open. -/
theorem c3_amended_connection_close (s : SMTP) (msg : Message) (srv : Server)
    (hr : msg.Recipients ≠ []) (hd : srv.dialOk = true) :
    (Ev.closeConn ∈ (s.Send msg srv).2 ↔
      (srv.greetOk = false ∨
        ((s.Send msg srv).1 = some SendErr.authFailed ∧ srv.quitOk = true) ∨
        (s.Send msg srv).1 = none)) := by
  have hlen : ¬ (msg.Recipients.length < 1) := by
    have := List.length_pos.mpr hr
    omega
  by_cases hg : srv.greetOk = true
  · by_cases hh : srv.helloOk = true
    · simp only [SMTP.Send, if_neg hlen, hd, hg, hh, Bool.not_true, Bool.false_eq_true,
        if_false, reduceIte]
      rw [andThen_none_pair]
      have hatls : Ev.closeConn ∈ (tlsPhase s srv).2 ↔
          ((tlsPhase s srv).1 = some SendErr.authFailed ∧ srv.quitOk = true) := by
        constructor
        · intro hmem
          rcases tlsPhase_mem hmem with ⟨hx, _⟩ | ⟨hx, _, _⟩ <;> simp at hx
        · rintro ⟨hx, _⟩
          rcases tlsPhase_fst s srv with hf | hf <;> rw [hf] at hx <;> simp at hx
      have hamail : Ev.closeConn ∈ (mailPhase msg srv).2 ↔
          ((mailPhase msg srv).1 = some SendErr.authFailed ∧ srv.quitOk = true) := by
        constructor
        · intro hmem
          have hx := mailPhase_mem hmem
          simp at hx
        · rintro ⟨hx, _⟩
          rcases mailPhase_fst msg srv with hf | hf <;> rw [hf] at hx <;> simp at hx
      have harcpt : Ev.closeConn ∈ (rcptLoop srv msg.Recipients 0).2 ↔
          ((rcptLoop srv msg.Recipients 0).1 = some SendErr.authFailed ∧
            srv.quitOk = true) := by
        constructor
        · intro hmem
          obtain ⟨r, _, hx⟩ := rcptLoop_mem _ _ hmem
          simp at hx
        · rintro ⟨hx, _⟩
          rcases rcptLoop_fst srv msg.Recipients 0 with hf | ⟨j, hf⟩ <;>
            rw [hf] at hx <;> simp at hx
      have hc4 : Ev.closeConn ∈ (dataPhase srv msg.Body).2 ↔
          ((dataPhase srv msg.Body).1 = none ∨
            ((dataPhase srv msg.Body).1 = some SendErr.authFailed ∧
              srv.quitOk = true)) := by
        constructor
        · intro hmem
          exact Or.inl ((dataPhase_close_iff srv msg.Body).mp hmem)
        · rintro (hres | ⟨hres, _⟩)
          · exact (dataPhase_close_iff srv msg.Body).mpr hres
          · rcases dataPhase_fst srv msg.Body with hf | hf | hf | hf <;>
              rw [hf] at hres <;> simp at hres
      have hc3 : Ev.closeConn ∈ (andThen (rcptLoop srv msg.Recipients 0) fun _ =>
            dataPhase srv msg.Body).2 ↔
          ((andThen (rcptLoop srv msg.Recipients 0) fun _ =>
              dataPhase srv msg.Body).1 = none ∨
            ((andThen (rcptLoop srv msg.Recipients 0) fun _ =>
              dataPhase srv msg.Body).1 = some SendErr.authFailed ∧
              srv.quitOk = true)) := andThen_close_iff harcpt hc4
      have hc2 : Ev.closeConn ∈ (andThen (mailPhase msg srv) fun _ =>
            andThen (rcptLoop srv msg.Recipients 0) fun _ =>
            dataPhase srv msg.Body).2 ↔
          ((andThen (mailPhase msg srv) fun _ =>
              andThen (rcptLoop srv msg.Recipients 0) fun _ =>
              dataPhase srv msg.Body).1 = none ∨
            ((andThen (mailPhase msg srv) fun _ =>
              andThen (rcptLoop srv msg.Recipients 0) fun _ =>
              dataPhase srv msg.Body).1 = some SendErr.authFailed ∧
              srv.quitOk = true)) := andThen_close_iff hamail hc3
      have hc1 : Ev.closeConn ∈ (andThen (authPhase s srv) fun _ =>
            andThen (mailPhase msg srv) fun _ =>
            andThen (rcptLoop srv msg.Recipients 0) fun _ =>
            dataPhase srv msg.Body).2 ↔
          ((andThen (authPhase s srv) fun _ =>
              andThen (mailPhase msg srv) fun _ =>
              andThen (rcptLoop srv msg.Recipients 0) fun _ =>
              dataPhase srv msg.Body).1 = none ∨
            ((andThen (authPhase s srv) fun _ =>
              andThen (mailPhase msg srv) fun _ =>
              andThen (rcptLoop srv msg.Recipients 0) fun _ =>
              dataPhase srv msg.Body).1 = some SendErr.authFailed ∧
              srv.quitOk = true)) := andThen_close_iff (authPhase_close s srv) hc2
      have hchain : Ev.closeConn ∈ (andThen (tlsPhase s srv) fun _ =>
            andThen (authPhase s srv) fun _ =>
            andThen (mailPhase msg srv) fun _ =>
            andThen (rcptLoop srv msg.Recipients 0) fun _ =>
            dataPhase srv msg.Body).2 ↔
          ((andThen (tlsPhase s srv) fun _ =>
              andThen (authPhase s srv) fun _ =>
              andThen (mailPhase msg srv) fun _ =>
              andThen (rcptLoop srv msg.Recipients 0) fun _ =>
              dataPhase srv msg.Body).1 = none ∨
            ((andThen (tlsPhase s srv) fun _ =>
              andThen (authPhase s srv) fun _ =>
              andThen (mailPhase msg srv) fun _ =>
              andThen (rcptLoop srv msg.Recipients 0) fun _ =>
              dataPhase srv msg.Body).1 = some SendErr.authFailed ∧
              srv.quitOk = true)) := andThen_close_iff hatls hc1
      constructor
      · intro hmem
        rcases List.mem_append.mp hmem with h | h
        · exact absurd h closeConn_not_mem_pre
        · rcases hchain.mp h with h | h
          · exact Or.inr (Or.inr h)
          · exact Or.inr (Or.inl h)
      · intro hres
        rcases hres with hres | hres | hres
        · simp at hres
        · exact List.mem_append.mpr (Or.inr (hchain.mpr (Or.inr hres)))
        · exact List.mem_append.mpr (Or.inr (hchain.mpr (Or.inl hres)))
    · have hh' : srv.helloOk = false := by
        revert hh
        cases srv.helloOk <;> simp
      simp only [SMTP.Send, if_neg hlen, hd, hg, hh', Bool.not_true, Bool.not_false,
        Bool.false_eq_true, if_false, if_true, reduceIte]
      constructor
      · intro hmem
        exact absurd hmem closeConn_not_mem_pre
      · intro hres
        rcases hres with hres | ⟨hres, _⟩ | hres
        · simp at hres
        · simp at hres
        · simp at hres
  · have hg' : srv.greetOk = false := by
      revert hg
      cases srv.greetOk <;> simp
    simp only [SMTP.Send, if_neg hlen, hd, hg', Bool.not_true, Bool.not_false,
      Bool.false_eq_true, if_false, if_true, reduceIte]
    constructor
    · intro hmem
      exact Or.inl trivial
    · intro hres
      simp

/-- Server rejecting the authentication exchange and accepting everything
else. -/
def srvAuthFail : Server :=
  { dialOk := true
    greetOk := true
    helloOk := true
    hasStartTLS := true
    startTLSOk := true
    authOk := false
    mailOk := true
    rcptOk := fun _ => true
    dataOk := true
    writeOk := true
    dataCloseOk := true
    quitOk := true }

/-- Credentialed plain-scheme configuration. -/
def cfgAuth : SMTP :=
  { scheme := str "smtp"
    server := str "mail.example.com:25"
    auth := some { identity := []
                   username := str "user"
                   password := str "pw"
                   host := str "mail.example.com:25" }
    hostname := str "client.local" }

/-- C3 (witness): the amended close characterization on two concrete
sessions: the all-accepting one, where the connection is closed on full
success, and the auth-rejecting one, where the library's internal QUIT
closes it despite the failure result. -/
theorem c3_witness :
    (msgSend.Recipients ≠ [] ∧ srvAllOk.dialOk = true ∧ srvAuthFail.dialOk = true) ∧
    ((Ev.closeConn ∈ (cfgPlain.Send msgSend srvAllOk).2 ↔
      (srvAllOk.greetOk = false ∨
        ((cfgPlain.Send msgSend srvAllOk).1 = some SendErr.authFailed ∧
          srvAllOk.quitOk = true) ∨
        (cfgPlain.Send msgSend srvAllOk).1 = none)) ∧
     (Ev.closeConn ∈ (cfgAuth.Send msgSend srvAuthFail).2 ↔
      (srvAuthFail.greetOk = false ∨
        ((cfgAuth.Send msgSend srvAuthFail).1 = some SendErr.authFailed ∧
          srvAuthFail.quitOk = true) ∨
        (cfgAuth.Send msgSend srvAuthFail).1 = none))) :=
  ⟨⟨by decide, rfl, rfl⟩,
    ⟨c3_amended_connection_close cfgPlain msgSend srvAllOk (by decide) rfl,
      c3_amended_connection_close cfgAuth msgSend srvAuthFail (by decide) rfl⟩⟩
end Goemail
